import Mathlib

/-!
Verification of the duration core of `embedded-time` (`src/duration.rs`).

The file shallowly embeds the code: a fixed-width integer storage type is a
signedness flag plus a bit width, its arithmetic is exact integer arithmetic
followed by two's-complement wrapping (the release-mode overflow behaviour of
the storage types), `Ratio` models the rational period type, and the
`Duration` capability, its three generated variants and the wrapped-integer
scaling operators are translated line by line from the source.
-/

namespace EmbTime

/-- A fixed-width integer storage type: signedness and bit width.  This models
the concrete integer types (such as `i32` or `u64`) that instantiate the
generic storage parameter `T` of the duration types. -/
structure IntType where
  signed : Bool
  bits : Nat
  bitsPos : 0 < bits

/-- Modelled from the spec: `IntTrait` lives in `src/integer.rs`, which is not
under `src/`; the spec says the generic-integer capability supplies
"minimum/maximum representable value queries".  The minimum representable
value of the storage type (`T::MIN`, `T::min_value()`). -/
def IntType.min_value (ty : IntType) : Int :=
  if ty.signed then -(2 ^ (ty.bits - 1)) else 0

/-- Modelled from the spec: the maximum representable value of the storage
type (`T::MAX`, `T::max_value()`). -/
def IntType.max_value (ty : IntType) : Int :=
  if ty.signed then 2 ^ (ty.bits - 1) - 1 else 2 ^ ty.bits - 1

/-- `x` is representable in the storage type `ty`. -/
def IntType.inRange (ty : IntType) (x : Int) : Prop :=
  ty.min_value ≤ x ∧ x ≤ ty.max_value

instance (ty : IntType) (x : Int) : Decidable (ty.inRange x) :=
  inferInstanceAs (Decidable (_ ∧ _))

/-- Reduction of an unbounded integer to the representable range of `ty`:
two's-complement (balanced-modulus) wrapping for signed storage, plain
modulus for unsigned storage.  This is the overflow behaviour of the storage
type's own arithmetic, to which the core delegates. -/
def IntType.wrap (ty : IntType) (x : Int) : Int :=
  if ty.signed then Int.bmod x (2 ^ ty.bits) else x % ((2 : Int) ^ ty.bits)

/-- Addition of the storage type. -/
def IntType.add (ty : IntType) (x y : Int) : Int := ty.wrap (x + y)

/-- Subtraction of the storage type. -/
def IntType.sub (ty : IntType) (x y : Int) : Int := ty.wrap (x - y)

/-- Multiplication of the storage type. -/
def IntType.mul (ty : IntType) (x y : Int) : Int := ty.wrap (x * y)

/-- Division of the storage type: Rust's integer division truncates toward
zero, hence `Int.tdiv`. -/
def IntType.div (ty : IntType) (x y : Int) : Int := ty.wrap (Int.tdiv x y)

/-- The `i32` storage type used by the documentation examples. -/
def i32 : IntType := ⟨true, 32, by decide⟩

/-- Models the external rational type `Ratio<i32>` of the `num` crate
(`pub(crate) type Period = Ratio<i32>;`, duration.rs line 87): a numerator
and a denominator. -/
structure Ratio where
  numer : Int
  denom : Int
  deriving DecidableEq

/-- `Ratio::new_raw`: builds a ratio without reducing it (used for the
`PERIOD` constants, duration.rs line 64). -/
def Ratio.new_raw (n d : Int) : Ratio := ⟨n, d⟩

/-- Models `Ratio::new` of the `num` crate, used by its arithmetic operators:
reduce by the (non-negative) gcd, then move the sign to the numerator.  The
exact divisions truncate toward zero like Rust's `/`. -/
def Ratio.new (n d : Int) : Ratio :=
  let g : Int := Int.gcd n d
  let n2 := Int.tdiv n g
  let d2 := Int.tdiv d g
  if d2 < 0 then ⟨-n2, -d2⟩ else ⟨n2, d2⟩

/-- Models `Div` of the `num` crate's `Ratio`:
`a / b = Ratio::new(a.numer * b.denom, a.denom * b.numer)`. -/
def Ratio.div (a b : Ratio) : Ratio :=
  Ratio.new (a.numer * b.denom) (a.denom * b.numer)

/-- Modelled from the spec: the wrapped-integer helper `Integer` lives in
`src/integer.rs`, which is not under `src/`; the spec describes it as "a
single-field container around a storage value". -/
structure Integer where
  val : Int

/-- `impl Mul<Period> for Integer<T>` (duration.rs lines 89 to 95):
`Self(self.0 * (*rhs.numer()).into() / (*rhs.denom()).into())`, computed with
the storage type's own multiplication and division. -/
def Integer.mulPeriod (ty : IntType) (a : Integer) (rhs : Ratio) : Integer :=
  ⟨ty.div (ty.mul a.val rhs.numer) rhs.denom⟩

/-- `impl Div<Period> for Integer<T>` (duration.rs lines 97 to 103):
`Self(self.0 * (*rhs.denom()).into() / (*rhs.numer()).into())`. -/
def Integer.divPeriod (ty : IntType) (a : Integer) (rhs : Ratio) : Integer :=
  ⟨ty.div (ty.mul a.val rhs.denom) rhs.numer⟩

/-- The `Duration` trait (duration.rs lines 8 to 55): an associated `PERIOD`
constant, a constructor and a count accessor.  The remaining trait methods
are provided defaults, translated below as definitions over this class. -/
class Duration (ty : IntType) (S : Type) where
  PERIOD : Ratio
  new : Int → S
  count : S → Int

/-- `fn period() -> Period { Self::PERIOD }` (duration.rs lines 15 to 17). -/
def Duration.period (ty : IntType) (S : Type) [Duration ty S] : Ratio :=
  @Duration.PERIOD ty S _

/-- `fn min_value() -> T { T::min_value() }` (duration.rs lines 24 to 26). -/
def Duration.min_value (ty : IntType) (S : Type) [Duration ty S] : Int :=
  ty.min_value

/-- `fn max_value() -> T { T::max_value() }` (duration.rs lines 33 to 35). -/
def Duration.max_value (ty : IntType) (S : Type) [Duration ty S] : Int :=
  ty.max_value

/-- `fn from_dur<U>(other: U) -> Self` (duration.rs lines 43 to 45):
`Self::new(*(Integer(other.count()) * (U::PERIOD / Self::PERIOD)))`. -/
def Duration.from_dur (ty : IntType) {S U : Type} [Duration ty S] [Duration ty U]
    (other : U) : S :=
  @Duration.new ty S _
    (Integer.mulPeriod ty ⟨@Duration.count ty U _ other⟩
      (Ratio.div (@Duration.PERIOD ty U _) (@Duration.PERIOD ty S _))).val

/-- `fn into_dur<U>(self) -> U` (duration.rs lines 52 to 54):
`U::new(*(Integer(self.count()) * (Self::PERIOD / U::PERIOD)))`. -/
def Duration.into_dur (ty : IntType) {S U : Type} [Duration ty S] [Duration ty U]
    (s : S) : U :=
  @Duration.new ty U _
    (Integer.mulPeriod ty ⟨@Duration.count ty S _ s⟩
      (Ratio.div (@Duration.PERIOD ty S _) (@Duration.PERIOD ty U _))).val

/-- `pub struct Seconds<T>(pub T)` generated by the `durations!` invocation
(duration.rs lines 60 to 61 and 85). -/
structure Seconds (ty : IntType) where
  val : Int
  deriving DecidableEq

/-- `pub struct Milliseconds<T>(pub T)`. -/
structure Milliseconds (ty : IntType) where
  val : Int
  deriving DecidableEq

/-- `pub struct Microseconds<T>(pub T)`. -/
structure Microseconds (ty : IntType) where
  val : Int
  deriving DecidableEq

/-- `impl Duration<T> for Seconds<T>` with
`PERIOD = Period::new_raw(1, 1)` (duration.rs lines 63 to 73 and 85). -/
instance instDurationSeconds (ty : IntType) : Duration ty (Seconds ty) :=
  ⟨Ratio.new_raw 1 1, Seconds.mk, Seconds.val⟩

/-- `impl Duration<T> for Milliseconds<T>` with
`PERIOD = Period::new_raw(1, 1_000)`. -/
instance instDurationMilliseconds (ty : IntType) : Duration ty (Milliseconds ty) :=
  ⟨Ratio.new_raw 1 1000, Milliseconds.mk, Milliseconds.val⟩

/-- `impl Duration<T> for Microseconds<T>` with
`PERIOD = Period::new_raw(1, 1_000_000)`. -/
instance instDurationMicroseconds (ty : IntType) : Duration ty (Microseconds ty) :=
  ⟨Ratio.new_raw 1 1000000, Microseconds.mk, Microseconds.val⟩

/-- `impl Add for Seconds<T>`: `Self(self.0 + rhs.0)` (duration.rs lines 446
to 456), using the storage type's addition. -/
def Seconds.add {ty : IntType} (a rhs : Seconds ty) : Seconds ty :=
  ⟨ty.add a.val rhs.val⟩

/-- `impl Sub for Seconds<T>`: `Self(self.0 - rhs.0)` (duration.rs lines 464
to 474). -/
def Seconds.sub {ty : IntType} (a rhs : Seconds ty) : Seconds ty :=
  ⟨ty.sub a.val rhs.val⟩

/-- `impl Sub for Milliseconds<T>`: `Self(self.0 - rhs.0)` (duration.rs lines
482 to 492). -/
def Milliseconds.sub {ty : IntType} (a rhs : Milliseconds ty) : Milliseconds ty :=
  ⟨ty.sub a.val rhs.val⟩

/-- The derive list the `durations!` invocation places on every variant
(duration.rs line 60): `#[derive(Copy, Clone, Eq, PartialEq, Debug)]`. -/
def derivedTraits : List String := ["Copy", "Clone", "Eq", "PartialEq", "Debug"]

/-- The modulus of the wrapping operation, split off one factor of two, so
that the signed bounds can be stated with the same power of two. -/
theorem IntType.two_pow_bits_eq (ty : IntType) :
    ((2 ^ ty.bits : Nat) : Int) = 2 * 2 ^ (ty.bits - 1) := by
  have h : ty.bits - 1 + 1 = ty.bits := Nat.succ_pred_eq_of_pos ty.bitsPos
  rw [← h]
  push_cast [pow_succ]
  ring

/-- Wrapping is the identity on representable values. -/
theorem IntType.wrap_eq_self (ty : IntType) (x : Int) (h : ty.inRange x) :
    ty.wrap x = x := by
  obtain ⟨h1, h2⟩ := h
  unfold IntType.min_value at h1
  unfold IntType.max_value at h2
  unfold IntType.wrap
  by_cases hs : ty.signed = true
  · rw [if_pos hs] at h1
    rw [if_pos hs] at h2
    rw [if_pos hs, Int.bmod_def, ty.two_pow_bits_eq]
    have hnpos : (0 : Int) < 2 ^ (ty.bits - 1) := pow_pos (by norm_num) _
    set n : Int := 2 ^ (ty.bits - 1) with hn
    have hsplit : x % (2 * n) = x ∨ x % (2 * n) = x + 2 * n := by
      rcases le_or_lt 0 x with hx | hx
      · exact Or.inl (Int.emod_eq_of_lt hx (by omega))
      · refine Or.inr ?_
        have e1 : (x + 2 * n * 1) % (2 * n) = x % (2 * n) :=
          Int.add_mul_emod_self_left x (2 * n) 1
        rw [mul_one] at e1
        rw [← e1]
        exact Int.emod_eq_of_lt (by omega) (by omega)
    rcases hsplit with h3 | h3 <;> rw [h3] <;> split <;> omega
  · rw [if_neg hs] at h1
    rw [if_neg hs] at h2
    rw [if_neg hs]
    exact Int.emod_eq_of_lt h1 (by omega)

/-- Every wrapped value is representable. -/
theorem IntType.inRange_wrap (ty : IntType) (x : Int) : ty.inRange (ty.wrap x) := by
  unfold IntType.inRange IntType.wrap IntType.min_value IntType.max_value
  by_cases hs : ty.signed = true
  · rw [if_pos hs, if_pos hs, if_pos hs, Int.bmod_def, ty.two_pow_bits_eq]
    have hnpos : (0 : Int) < 2 ^ (ty.bits - 1) := pow_pos (by norm_num) _
    set n : Int := 2 ^ (ty.bits - 1) with hn
    have e0 : 0 ≤ x % (2 * n) := Int.emod_nonneg x (by omega)
    have e1 : x % (2 * n) < 2 * n := Int.emod_lt_of_pos x (by omega)
    constructor <;> split <;> omega
  · rw [if_neg hs, if_neg hs, if_neg hs]
    have hnpos : (0 : Int) < 2 ^ ty.bits := pow_pos (by norm_num) _
    have e0 : 0 ≤ x % 2 ^ ty.bits := Int.emod_nonneg x (by omega)
    have e1 : x % 2 ^ ty.bits < 2 ^ ty.bits := Int.emod_lt_of_pos x (by omega)
    omega

/-- Scaling a representable value by the ratio `1 / 1` is the identity. -/
theorem Integer.mulPeriod_one (ty : IntType) (x : Int) (h : ty.inRange x) :
    (Integer.mulPeriod ty ⟨x⟩ ⟨1, 1⟩).val = x := by
  unfold Integer.mulPeriod IntType.div IntType.mul
  rw [mul_one, ty.wrap_eq_self x h, Int.tdiv_one, ty.wrap_eq_self x h]

/-- C1: for i32 storage the conversion primitive yields exactly the spec's
examples: `Milliseconds::from_dur(Seconds(1_000)) == Milliseconds(1_000_000)`,
`Seconds::from_dur(Milliseconds(1_234)) == Seconds(1)` (truncation toward
zero on coarsening), and
`Microseconds::from_dur(Milliseconds(1_234)) == Microseconds(1_234_000)`. -/
theorem c1_scaling_examples :
    (Duration.from_dur i32 (⟨1000⟩ : Seconds i32) : Milliseconds i32) = ⟨1000000⟩
    ∧ (Duration.from_dur i32 (⟨1234⟩ : Milliseconds i32) : Seconds i32) = ⟨1⟩
    ∧ (Duration.from_dur i32 (⟨1234⟩ : Milliseconds i32) : Microseconds i32) = ⟨1234000⟩ := by
  refine ⟨?_, ?_, ?_⟩ <;> decide

/-- C2: for every storage value of a variant type `X` and every target
variant `U` over the same storage type, `U::from_dur(x)` equals
`x.into_dur::<U>()`: both scale the count by the ratio of the source period
to the target period, so the two conversion directions agree on every
input. -/
theorem c2_from_dur_into_dur_agree (ty : IntType) {X U : Type}
    [Duration ty X] [Duration ty U] (x : X) :
    (Duration.from_dur ty x : U) = Duration.into_dur ty x := rfl

/-- C4: scaling a wrapped integer by a period `(numer, denom)` is computed as
`value * numer / denom` in that strict order (the multiplication happens
first, then the truncating division), and dividing by a period is computed as
`value * denom / numer` in that strict order, each step using the storage
type's own (wrapping) arithmetic. -/
theorem c4_scaling_order (ty : IntType) (x : Int) (p : Ratio) :
    (Integer.mulPeriod ty ⟨x⟩ p).val = ty.wrap (Int.tdiv (ty.wrap (x * p.numer)) p.denom)
    ∧ (Integer.divPeriod ty ⟨x⟩ p).val = ty.wrap (Int.tdiv (ty.wrap (x * p.denom)) p.numer) :=
  ⟨rfl, rfl⟩

/-- C5: conversion of negative counts truncates toward zero, not toward
negative infinity: with signed i32 storage,
`Seconds::from_dur(Milliseconds(-1_234))` yields `Seconds(-1)`, not
`Seconds(-2)`. -/
theorem c5_negative_truncates_toward_zero :
    (Duration.from_dur i32 (⟨-1234⟩ : Milliseconds i32) : Seconds i32) = ⟨-1⟩
    ∧ (⟨-1⟩ : Seconds i32) ≠ ⟨-2⟩ := by
  refine ⟨?_, ?_⟩ <;> decide

/-- C7: same-unit arithmetic is elementwise on the counts, using the storage
type's arithmetic: `Seconds(a) + Seconds(b) == Seconds(a + b)` and
`Variant(a) - Variant(b) == Variant(a - b)` for the two variants with
subtraction; in particular `Seconds(3) + Seconds(2) == Seconds(5)`,
`Seconds(3) - Seconds(2) == Seconds(1)` and
`Milliseconds(3) - Milliseconds(2) == Milliseconds(1)` with i32 storage. -/
theorem c7_same_unit_arithmetic (ty : IntType) (a b : Int) :
    Seconds.add (⟨a⟩ : Seconds ty) ⟨b⟩ = ⟨ty.add a b⟩
    ∧ Seconds.sub (⟨a⟩ : Seconds ty) ⟨b⟩ = ⟨ty.sub a b⟩
    ∧ Milliseconds.sub (⟨a⟩ : Milliseconds ty) ⟨b⟩ = ⟨ty.sub a b⟩
    ∧ Seconds.add (⟨3⟩ : Seconds i32) ⟨2⟩ = ⟨5⟩
    ∧ Seconds.sub (⟨3⟩ : Seconds i32) ⟨2⟩ = ⟨1⟩
    ∧ Milliseconds.sub (⟨3⟩ : Milliseconds i32) ⟨2⟩ = ⟨1⟩ :=
  ⟨rfl, rfl, rfl, by decide, by decide, by decide⟩

/-- C6 counterexample: the claim also asserts that the variants are ordered
by their raw counts, but the `durations!` derive list contains neither `Ord`
nor `PartialOrd`, so no ordering is provided at all. -/
theorem c6_counterexample_no_ordering :
    "Ord" ∉ derivedTraits ∧ "PartialOrd" ∉ derivedTraits := by
  refine ⟨?_, ?_⟩ <;> decide

/-- C6 (amended): equality of two values of the same variant type is
structural on the raw count (`Variant(a) == Variant(b)` iff `a == b`), and
the derive list provides no ordering (neither `Ord` nor `PartialOrd` is
derived); cross-variant comparison is likewise not provided. -/
theorem c6_structural_equality (ty : IntType) (a b : Int) :
    ((⟨a⟩ : Seconds ty) = ⟨b⟩ ↔ a = b)
    ∧ ((⟨a⟩ : Milliseconds ty) = ⟨b⟩ ↔ a = b)
    ∧ ((⟨a⟩ : Microseconds ty) = ⟨b⟩ ↔ a = b)
    ∧ "Ord" ∉ derivedTraits ∧ "PartialOrd" ∉ derivedTraits := by
  refine ⟨?_, ?_, ?_, by decide, by decide⟩ <;> simp

/-- Wrapping is idempotent. -/
theorem IntType.wrap_wrap (ty : IntType) (x : Int) :
    ty.wrap (ty.wrap x) = ty.wrap x :=
  ty.wrap_eq_self (ty.wrap x) (ty.inRange_wrap x)

/-- If a value scaled by 1000 is representable, so is the value itself. -/
theorem IntType.inRange_of_inRange_mul_1000 (ty : IntType) (c : Int)
    (h : ty.inRange (c * 1000)) : ty.inRange c := by
  obtain ⟨h1, h2⟩ := h
  unfold IntType.inRange IntType.min_value IntType.max_value at *
  by_cases hs : ty.signed = true
  · rw [if_pos hs] at h1 ⊢
    rw [if_pos hs] at h2 ⊢
    have : (0 : Int) < 2 ^ (ty.bits - 1) := pow_pos (by norm_num) _
    omega
  · rw [if_neg hs] at h1 ⊢
    rw [if_neg hs] at h2 ⊢
    have : (0 : Int) < 2 ^ ty.bits := pow_pos (by norm_num) _
    omega

/-- C3 counterexample: the round trip is not exact for every count in the
storage range.  With i32 storage the count 2147483647 is representable, but
`Seconds(2147483647)` converted to `Milliseconds` overflows the intermediate
multiplication by 1000 and wraps, so converting back yields `Seconds(-1)`,
not the original count. -/
theorem c3_counterexample_roundtrip_overflow :
    i32.inRange 2147483647
    ∧ (Duration.from_dur i32
        (Duration.from_dur i32 (⟨2147483647⟩ : Seconds i32) : Milliseconds i32)
        : Seconds i32) = ⟨-1⟩
    ∧ (⟨-1⟩ : Seconds i32) ≠ ⟨2147483647⟩ := by
  refine ⟨?_, ?_, ?_⟩ <;> decide

/-- C3 (amended): converting `Seconds(c)` to `Milliseconds` and back to
`Seconds` yields `Seconds(c)` exactly whenever the intermediate product
`c * 1000` is representable in the storage type (for any storage type); the
claim as stated fails only when that multiplication overflows. -/
theorem c3_roundtrip_seconds_milliseconds (ty : IntType) (c : Int)
    (h : ty.inRange (c * 1000)) :
    (Duration.from_dur ty
      (Duration.from_dur ty (⟨c⟩ : Seconds ty) : Milliseconds ty)
      : Seconds ty) = ⟨c⟩ := by
  have hc : ty.inRange c := ty.inRange_of_inRange_mul_1000 c h
  have k1 : Ratio.div (Ratio.new_raw 1 1) (Ratio.new_raw 1 1000) = ⟨1000, 1⟩ := by decide
  have k2 : Ratio.div (Ratio.new_raw 1 1000) (Ratio.new_raw 1 1) = ⟨1, 1000⟩ := by decide
  simp only [Duration.from_dur, instDurationSeconds, instDurationMilliseconds,
    k1, k2, Integer.mulPeriod, IntType.mul, IntType.div, mul_one, Int.tdiv_one,
    IntType.wrap_wrap]
  rw [ty.wrap_eq_self (c * 1000) h,
    Int.mul_tdiv_cancel c (show (1000 : Int) ≠ 0 by norm_num),
    ty.wrap_eq_self c hc]

/-- Witness for C3 (amended) at i32 storage and count 7. -/
theorem c3_roundtrip_seconds_milliseconds_witness :
    i32.inRange (7 * 1000)
    ∧ (Duration.from_dur i32
        (Duration.from_dur i32 (⟨7⟩ : Seconds i32) : Milliseconds i32)
        : Seconds i32) = ⟨7⟩ :=
  ⟨by decide, c3_roundtrip_seconds_milliseconds i32 7 (by decide)⟩

/-- C10: converting a value to its own variant type is the identity on every
representable count, for each of the three variants and both conversion
directions, because `V::PERIOD / V::PERIOD` reduces to the ratio `1 / 1` and
scaling a representable count by `1 / 1` is `x * 1 / 1 == x`. -/
theorem c10_identity_conversion (ty : IntType) (x : Int) (h : ty.inRange x) :
    (Duration.from_dur ty (⟨x⟩ : Seconds ty) : Seconds ty) = ⟨x⟩
    ∧ (Duration.from_dur ty (⟨x⟩ : Milliseconds ty) : Milliseconds ty) = ⟨x⟩
    ∧ (Duration.from_dur ty (⟨x⟩ : Microseconds ty) : Microseconds ty) = ⟨x⟩
    ∧ (Duration.into_dur ty (⟨x⟩ : Seconds ty) : Seconds ty) = ⟨x⟩
    ∧ (Duration.into_dur ty (⟨x⟩ : Milliseconds ty) : Milliseconds ty) = ⟨x⟩
    ∧ (Duration.into_dur ty (⟨x⟩ : Microseconds ty) : Microseconds ty) = ⟨x⟩
    ∧ Ratio.div (Ratio.new_raw 1 1) (Ratio.new_raw 1 1) = ⟨1, 1⟩
    ∧ Ratio.div (Ratio.new_raw 1 1000) (Ratio.new_raw 1 1000) = ⟨1, 1⟩
    ∧ Ratio.div (Ratio.new_raw 1 1000000) (Ratio.new_raw 1 1000000) = ⟨1, 1⟩ := by
  have k1 : Ratio.div (Ratio.new_raw 1 1) (Ratio.new_raw 1 1) = ⟨1, 1⟩ := by decide
  have k2 : Ratio.div (Ratio.new_raw 1 1000) (Ratio.new_raw 1 1000) = ⟨1, 1⟩ := by decide
  have k3 : Ratio.div (Ratio.new_raw 1 1000000) (Ratio.new_raw 1 1000000) = ⟨1, 1⟩ := by decide
  have hone := Integer.mulPeriod_one ty x h
  refine ⟨?_, ?_, ?_, ?_, ?_, ?_, k1, k2, k3⟩ <;>
    simp only [Duration.from_dur, Duration.into_dur, instDurationSeconds,
      instDurationMilliseconds, instDurationMicroseconds, k1, k2, k3, hone]

/-- Witness for C10 at i32 storage and count 5. -/
theorem c10_identity_conversion_witness :
    i32.inRange 5
    ∧ ((Duration.from_dur i32 (⟨5⟩ : Seconds i32) : Seconds i32) = ⟨5⟩
      ∧ (Duration.from_dur i32 (⟨5⟩ : Milliseconds i32) : Milliseconds i32) = ⟨5⟩
      ∧ (Duration.from_dur i32 (⟨5⟩ : Microseconds i32) : Microseconds i32) = ⟨5⟩
      ∧ (Duration.into_dur i32 (⟨5⟩ : Seconds i32) : Seconds i32) = ⟨5⟩
      ∧ (Duration.into_dur i32 (⟨5⟩ : Milliseconds i32) : Milliseconds i32) = ⟨5⟩
      ∧ (Duration.into_dur i32 (⟨5⟩ : Microseconds i32) : Microseconds i32) = ⟨5⟩
      ∧ Ratio.div (Ratio.new_raw 1 1) (Ratio.new_raw 1 1) = ⟨1, 1⟩
      ∧ Ratio.div (Ratio.new_raw 1 1000) (Ratio.new_raw 1 1000) = ⟨1, 1⟩
      ∧ Ratio.div (Ratio.new_raw 1 1000000) (Ratio.new_raw 1 1000000) = ⟨1, 1⟩) :=
  ⟨by decide, c10_identity_conversion i32 5 (by decide)⟩

/-- The minimum representable value never exceeds the maximum. -/
theorem IntType.min_le_max (ty : IntType) : ty.min_value ≤ ty.max_value := by
  unfold IntType.min_value IntType.max_value
  by_cases hs : ty.signed = true
  · rw [if_pos hs, if_pos hs]
    have : (0 : Int) < 2 ^ (ty.bits - 1) := pow_pos (by norm_num) _
    omega
  · rw [if_neg hs, if_neg hs]
    have : (0 : Int) < 2 ^ ty.bits := pow_pos (by norm_num) _
    omega

/-- C8: for every storage type and every variant, `min_value()` returns
exactly the storage type's minimum representable value and `max_value()` its
maximum: the trait methods delegate to the storage type's bound queries, the
two bounds are themselves representable, they bound every representable
value, and every result of the storage type's wrapping arithmetic lies
between them. -/
theorem c8_min_max_values (ty : IntType) (S : Type) [Duration ty S] :
    Duration.min_value ty S = ty.min_value
    ∧ Duration.max_value ty S = ty.max_value
    ∧ ty.inRange ty.min_value
    ∧ ty.inRange ty.max_value
    ∧ (∀ x : Int, ty.inRange x → ty.min_value ≤ x ∧ x ≤ ty.max_value)
    ∧ (∀ x : Int, ty.min_value ≤ ty.wrap x ∧ ty.wrap x ≤ ty.max_value) :=
  ⟨rfl, rfl, ⟨le_refl _, ty.min_le_max⟩, ⟨ty.min_le_max, le_refl _⟩,
    fun _ hx => hx, fun x => ty.inRange_wrap x⟩

/-- The decimal digits of a natural number, most significant first, computed
with an explicit fuel so that the recursion is structural. -/
def natDigitsAux : Nat → Nat → List Nat
  | 0, _ => []
  | fuel + 1, n => if n < 10 then [n] else natDigitsAux fuel (n / 10) ++ [n % 10]

/-- The decimal digits of a natural number, most significant first. -/
def natDigits (n : Nat) : List Nat := natDigitsAux (n + 1) n

/-- The value denoted by a most-significant-first list of decimal digits. -/
def digitsVal (l : List Nat) : Nat := l.foldl (fun a d => 10 * a + d) 0

/-- The character of a decimal digit. -/
def digitChar (d : Nat) : Char := Char.ofNat (48 + d)

/-- The decimal rendering of a natural number. -/
def renderNat (n : Nat) : String := String.mk ((natDigits n).map digitChar)

/-- Models the `Display` implementation of the primitive integer storage
types (external to the crate): the decimal digits of the value, preceded by a
minus sign when it is negative. -/
def intDecimal (x : Int) : String :=
  if x < 0 then "-" ++ renderNat x.natAbs else renderNat x.natAbs

/-- `impl fmt::Display for $name<T>` generated by `durations!` (duration.rs
lines 75 to 79): `write!(f, "{}", self.count())`, rendering the raw count
with the storage type's own decimal formatting and nothing else. -/
def Duration.display (ty : IntType) {S : Type} [Duration ty S] (s : S) : String :=
  intDecimal (@Duration.count ty S _ s)

/-- Appending a digit multiplies the denoted value by ten and adds it. -/
theorem digitsVal_append (l : List Nat) (d : Nat) :
    digitsVal (l ++ [d]) = 10 * digitsVal l + d := by
  simp [digitsVal, List.foldl_append]

/-- With enough fuel, the digit list denotes the number it was computed
from. -/
theorem digitsVal_natDigitsAux :
    ∀ fuel n : Nat, n < fuel → digitsVal (natDigitsAux fuel n) = n := by
  intro fuel
  induction fuel with
  | zero => intro n h; omega
  | succ fuel ih =>
    intro n h
    unfold natDigitsAux
    by_cases h10 : n < 10
    · rw [if_pos h10]
      simp [digitsVal]
    · rw [if_neg h10, digitsVal_append, ih (n / 10) (by omega)]
      omega

/-- Every entry of the digit list is a decimal digit. -/
theorem natDigitsAux_lt_ten :
    ∀ fuel n : Nat, ∀ d ∈ natDigitsAux fuel n, d < 10 := by
  intro fuel
  induction fuel with
  | zero => intro n d hd; simp [natDigitsAux] at hd
  | succ fuel ih =>
    intro n d hd
    unfold natDigitsAux at hd
    by_cases h10 : n < 10
    · rw [if_pos h10] at hd
      simp at hd
      omega
    · rw [if_neg h10, List.mem_append] at hd
      rcases hd with hd | hd
      · exact ih (n / 10) d hd
      · simp at hd
        omega

/-- The code of a decimal digit's character. -/
theorem digitChar_toNat (d : Nat) (h : d < 10) : (digitChar d).toNat = 48 + d := by
  interval_cases d <;> decide

/-- C9: rendering any variant value produces exactly the decimal digit string
of its raw count: the output is the digit characters of the count's absolute
value, preceded by a minus sign exactly when the count is negative; the digit
list denotes the count's absolute value, and every character of the digit
part is a decimal digit character, so there is no unit suffix or other
annotation. -/
theorem c9_display_decimal (ty : IntType) {S : Type} [Duration ty S] (s : S) :
    Duration.display ty s
      = (if @Duration.count ty S _ s < 0 then "-" else "")
          ++ String.mk ((natDigits (@Duration.count ty S _ s).natAbs).map digitChar)
    ∧ digitsVal (natDigits (@Duration.count ty S _ s).natAbs)
        = (@Duration.count ty S _ s).natAbs
    ∧ (∀ d ∈ natDigits (@Duration.count ty S _ s).natAbs, d < 10)
    ∧ (∀ c ∈ (natDigits (@Duration.count ty S _ s).natAbs).map digitChar,
        48 ≤ c.toNat ∧ c.toNat ≤ 57) := by
  refine ⟨?_, ?_, ?_, ?_⟩
  · by_cases hneg : @Duration.count ty S _ s < 0
    · rw [if_pos hneg]
      unfold Duration.display intDecimal renderNat
      rw [if_pos hneg]
    · rw [if_neg hneg]
      unfold Duration.display intDecimal renderNat
      rw [if_neg hneg]
      rfl
  · exact digitsVal_natDigitsAux _ _ (Nat.lt_succ_self _)
  · exact natDigitsAux_lt_ten _ _
  · intro c hc
    rw [List.mem_map] at hc
    obtain ⟨d, hd, rfl⟩ := hc
    have hlt := natDigitsAux_lt_ten _ _ d hd
    rw [digitChar_toNat d hlt]
    omega

end EmbTime
